import Mathlib

/-!
Verification of the tinytag audio metadata reader (src/tinytag/tinytag.py).

The relevant parts of the source are shallowly embedded below: byte
streams become `List Nat` (each element a byte value), Python integers
become `Nat`/`Int` with explicit wrap-arounds where the source relies
on fixed-width unpacking, Python float arithmetic on durations and
bitrates becomes exact rational arithmetic (`Rat`) over the same
formulas, and fallible code returns `Option`/`Except`.
-/

deriving instance DecidableEq for Except

namespace Tinytag

/-- Big-endian fold of a byte tuple, as `TinyTag._bytes_to_int`:
`reduce (λ accu elem, (accu <<< 8) + elem) b 0`. -/
def bytes_to_int (b : List Nat) : Nat :=
  b.foldl (fun accu elem => (accu <<< 8) + elem) 0

/-- `TinyTag._calc_size(bytestr, bits_per_byte)`: fold
`(accu <<< bits_per_byte) + elem` over the bytes, used with
`bits_per_byte = 7` for ID3v2 synchsafe sizes and `8` for plain sizes. -/
def calc_size (bytestr : List Nat) (bits_per_byte : Nat) : Nat :=
  bytestr.foldl (fun accu elem => (accu <<< bits_per_byte) + elem) 0

/-- The synchsafe encoding described by the specification: a 28-bit value
is stored in 4 bytes holding 7 payload bits each, most significant first.
(tinytag itself only decodes; this is the claim's mathematical encoder.) -/
def synchsafeEncode (n : Nat) : List Nat :=
  [n / 2 ^ 21 % 128, n / 2 ^ 14 % 128, n / 2 ^ 7 % 128, n % 128]

/-- A Python value held in a tag field: `str`, `int`, `float` (modelled
exactly as a rational) or `bytes`. -/
inductive Value
  | str (s : String)
  | int (n : Int)
  | flt (q : Rat)
  | bytes (b : List Nat)
deriving DecidableEq, Repr

/-- Python truthiness of a stored value (`if new_value:` in `_update`,
`if ... old_value ...` in `_set_field`). -/
def Value.truthy : Value → Bool
  | .str s => s ≠ ""
  | .int n => n ≠ 0
  | .flt q => q ≠ 0
  | .bytes b => b ≠ []

/-- Whether a value is a Python `str` (`isinstance(value, str)`). -/
def Value.isStr : Value → Bool
  | .str _ => true
  | _ => false

/-- The mutable output record (`TinyTag.__dict__` plus the `extra` dict):
the main dict is a key-to-value map, the `extra` dict an ordered
association list (Python dicts preserve insertion order and
`_update` iterates `other.extra.items()`). -/
structure Record where
  fields : String → Option Value
  extra : List (String × Value)

/-- The record as produced by `TinyTag.__init__`: every tag and audio
property attribute is `None` and `extra` is the empty dict. -/
def emptyRecord : Record := ⟨fun _ => none, []⟩

/-- Python dict assignment `d[k] = v` on an ordered association list:
replaces in place if present, appends otherwise. -/
def dictSet : List (String × Value) → String → Value → List (String × Value)
  | [], k, v => [(k, v)]
  | (k0, v0) :: rest, k, v =>
    if k0 = k then (k0, v) :: rest else (k0, v0) :: dictSet rest k v

/-- The value that `_set_field` ends up storing: if the new value is a
`str` and the old value is truthy and different, the strings are joined
with a NUL separator (`old_value + '\x00' + value`); a non-`str` old
value in that branch is a Python `TypeError`, modelled as `none`. -/
def mergeValue (old : Option Value) (value : Value) : Option Value :=
  if value.isStr then
    match old with
    | some o =>
      if o.truthy = true ∧ o ≠ value then
        match o, value with
        | .str os, .str s => some (.str (os ++ "\x00" ++ s))
        | _, _ => none
      else some value
    | none => some value
  else some value

/-- `TinyTag._set_field(fieldname, value)`: an empty string is never
stored; a `fieldname` starting with `extra.` writes into the `extra`
dict under the stripped key; otherwise into the record dict, combining
with the old value per `mergeValue`. -/
def setField (r : Record) (fieldname : String) (value : Value) :
    Option Record :=
  if value = .str "" then some r
  else if fieldname.startsWith "extra." then
    (mergeValue (r.extra.lookup (fieldname.drop 6)) value).map
      (fun v => { r with extra := dictSet r.extra (fieldname.drop 6) v })
  else
    (mergeValue (r.fields fieldname) value).map
      (fun v =>
        { r with fields := fun k => if k = fieldname then some v else r.fields k })

/-- The fixed attribute list that `TinyTag._update` copies. -/
def updateKeys : List String :=
  ["track", "track_total", "title", "artist", "album", "albumartist",
   "year", "duration", "genre", "disc", "disc_total", "comment",
   "bitdepth", "bitrate", "channels", "samplerate", "_image_data"]

/-- `TinyTag._update(other)`: for each listed attribute, a truthy value
of `other` is written through `_set_field`; then every `extra` entry of
`other` is written through `_set_field('extra.' + key, value)`. -/
def update (self other : Record) : Option Record := do
  let r ← updateKeys.foldlM
    (fun r key =>
      match other.fields key with
      | some v => if v.truthy then setField r key v else pure r
      | none => pure r)
    self
  other.extra.foldlM (fun r kv => setField r ("extra." ++ kv.1) kv.2) r

/-- The tag-merge skeleton of `_Flac._parse_tag`: each VORBIS_COMMENT
block's parsed record is merged in as the block is met
(`self._update(oggtag)` inside the block loop), and the optional leading
ID3v2 record is merged exactly once after the loop (`self._update(id3)`,
guarded by `id3 is not None`). -/
def flacMergeTags (vorbis : List Record) (id3 : Option Record) :
    Option Record := do
  let r ← vorbis.foldlM (fun r v => update r v) emptyRecord
  match id3 with
  | some i => update r i
  | none => pure r

/-! ### WAV (`_Wave._parse_tag`) audio-property state machine -/

/-- The audio-property attributes touched by `_Wave._parse_tag`. -/
structure WaveState where
  channels : Option Nat
  samplerate : Option Nat
  bitdepth : Option Nat
  bitrate : Option Rat
  duration : Option Rat
deriving DecidableEq, Repr

/-- The state on entering the chunk loop of `_Wave._parse_tag`: all
attributes are `None` from `__init__` except `self.bitdepth = 16`,
assigned right after the RIFF/WAVE magic check. -/
def waveInit : WaveState :=
  { channels := none, samplerate := none, bitdepth := some 16,
    bitrate := none, duration := none }

/-- One RIFF chunk as seen by the audio-property logic of
`_Wave._parse_tag`: a `fmt ` chunk carries the decoded channel count,
sample rate and bit depth fields; a `data` chunk carries its declared
(even-padded) size; every other chunk id (`LIST`, `id3 `, unknown) leaves
the audio-property attributes unchanged and is collapsed to `other`. -/
inductive WaveChunk
  | fmt (channels samplerate bitdepth : Nat)
  | data (size : Nat)
  | other
deriving DecidableEq, Repr

/-- Processing of one chunk by `_Wave._parse_tag`: the `fmt ` branch
coerces a zero bit depth to 1 and derives the nominal bitrate
`samplerate * channels * bitdepth / 1000`; the `data` branch computes
`duration = size / channels / samplerate / (bitdepth / 8)` when channels,
samplerate and bitdepth are all set, raising Python's ZeroDivisionError
when a divisor is zero. -/
def waveStep (st : WaveState) (c : WaveChunk) : Except String WaveState :=
  match c with
  | .fmt ch sr bd =>
    let bd := if bd = 0 then 1 else bd
    .ok { st with channels := some ch, samplerate := some sr,
                  bitdepth := some bd,
                  bitrate := some (((sr * ch * bd : Nat) : Rat) / 1000) }
  | .data size =>
    match st.channels, st.samplerate, st.bitdepth with
    | some ch, some sr, some bd =>
      if ch = 0 then .error "division by zero: channels"
      else if sr = 0 then .error "division by zero: samplerate"
      else if bd = 0 then .error "division by zero: bitdepth"
      else
        let d : Rat := (size : Rat) / (ch : Rat) / (sr : Rat) / ((bd : Rat) / 8)
        .ok { st with duration := some d }
    | _, _, _ => .ok st
  | .other => .ok st

/-- The chunk loop of `_Wave._parse_tag` from a given state: chunks are
processed in order and a raised exception aborts the loop. -/
def waveRunFrom (st : WaveState) : List WaveChunk → Except String WaveState
  | [] => .ok st
  | c :: cs =>
    match waveStep st c with
    | .ok t => waveRunFrom t cs
    | .error e => .error e

/-- The chunk loop of `_Wave._parse_tag` over a chunk list, from the
initial state. -/
def waveRun (chunks : List WaveChunk) : Except String WaveState :=
  waveRunFrom waveInit chunks

/-! ### Ogg page demuxing (`_Ogg._parse_pages`) -/

/-- Little-endian byte-list value (`struct` `<q`/`<I` payloads). -/
def leNat (b : List Nat) : Nat :=
  b.foldr (fun byte acc => acc * 256 + byte) 0

/-- Reinterpret a 64-bit unsigned value as `struct.unpack('<q', ...)`
does (two's complement). -/
def toSigned64 (n : Nat) : Int :=
  if n < 2 ^ 63 then (n : Int) else (n : Int) - 2 ^ 64

/-- The segment loop of `_Ogg._parse_pages` for one page: arguments are
the remaining segment table, the page read position, the running
`total` and the `previous_page` carry; segments accumulate into `total`
and a packet is yielded as soon as `total < 255` holds after adding a
segment; at table end a non-zero remainder is carried to the next page
when it is a multiple of 255 and yielded as one packet otherwise.
Returns the yielded packets, the new carry and the new read position. -/
def oggSegments (buf : List Nat) : List Nat → Nat → Nat → List Nat →
    List (List Nat) × List Nat × Nat
  | [], rp, total, prev =>
    if total ≠ 0 then
      if total % 255 = 0 then ([], prev ++ (buf.drop rp).take total, rp + total)
      else ([prev ++ (buf.drop rp).take total], [], rp + total)
    else ([], prev, rp)
  | s :: rest, rp, total, prev =>
    let total2 := total + s
    if total2 < 255 then
      let pkt := prev ++ (buf.drop rp).take total2
      let res := oggSegments buf rest (rp + total2) 0 []
      (pkt :: res.1, res.2)
    else oggSegments buf rest rp total2 prev

/-- `b'OggS'`. -/
def oggMagic : List Nat := [79, 103, 103, 83]

/-- `_Ogg._parse_pages`, fuel-bounded, returning the yielded packets and
the final `_max_samplenum`: each iteration reads a 27-byte page header
(`<4sBBqIIiB`: magic, version, flags, granule position, serial, page
sequence, checksum, segment count), tracks the running maximum granule
position, raises on a bad magic or version, reads the segment table
(`struct.error` when short) and reassembles packets per `oggSegments`;
a header read shorter than 27 bytes ends the generator (dropping any
pending carry). -/
def parsePages : Nat → List Nat → Nat → List Nat → Int →
    Except String (List (List Nat) × Int)
  | 0, _, _, _, _ => .error "fuel exhausted"
  | fuel + 1, buf, pos, prev, maxS =>
    let header := (buf.drop pos).take 27
    if header.length < 27 then .ok ([], maxS)
    else
      let granule := toSigned64 (leNat ((header.drop 6).take 8))
      let segments := header.getD 26 0
      let maxS := max maxS granule
      if header.take 4 ≠ oggMagic ∨ header.getD 4 0 ≠ 0 then
        .error "Invalid OGG file"
      else
        let segtable := (buf.drop (pos + 27)).take segments
        if segtable.length ≠ segments then .error "struct.error"
        else
          let res := oggSegments buf segtable (pos + 27 + segments) 0 prev
          match parsePages fuel buf res.2.2 res.2.1 maxS with
          | .ok (rest, m) => .ok (res.1 ++ rest, m)
          | .error e => .error e

/-- Little-endian encoding of a 64-bit value (page-building helper). -/
def leBytes8 (v : Nat) : List Nat :=
  [v % 256, v / 2 ^ 8 % 256, v / 2 ^ 16 % 256, v / 2 ^ 24 % 256,
   v / 2 ^ 32 % 256, v / 2 ^ 40 % 256, v / 2 ^ 48 % 256, v / 2 ^ 56 % 256]

/-- Little-endian encoding of a 32-bit value (page-building helper). -/
def leBytes4 (v : Nat) : List Nat :=
  [v % 256, v / 2 ^ 8 % 256, v / 2 ^ 16 % 256, v / 2 ^ 24 % 256]

/-- A 27-byte Ogg page header with the given granule position and
segment count (version, flags, serial, sequence and checksum zero). -/
def pageHeader (granule segments : Nat) : List Nat :=
  [79, 103, 103, 83, 0, 0] ++ leBytes8 granule ++ leBytes4 0 ++ leBytes4 0
    ++ leBytes4 0 ++ [segments]

/-- A full Ogg page: header, segment table, body. -/
def mkOggPage (granule : Nat) (segtable body : List Nat) : List Nat :=
  pageHeader granule segtable.length ++ segtable ++ body

/-- A single page whose segment table `[255, 10, 5]` encodes one
265-byte packet followed by one 5-byte packet over a 270-byte body. -/
def c4page : List Nat := mkOggPage 0 [255, 10, 5] (List.replicate 270 7)

/-! ### MP3 duration estimation (`_ID3._determine_duration`) -/

/-- `bytes.find(pattern)`: index of the first occurrence of `pattern`
in the buffer, `none` when absent (Python returns -1). -/
def findSeq : List Nat → List Nat → Option Nat
  | buf, pat =>
    if pat.isPrefixOf buf then some 0
    else
      match buf with
      | [] => none
      | _ :: rest => (findSeq rest pat).map (fun i => i + 1)

/-- Reinterpret a 32-bit unsigned value as `struct.unpack('>i', ...)`
does (two's complement). -/
def toSigned32 (n : Nat) : Int :=
  if n < 2 ^ 31 then (n : Int) else (n : Int) - 2 ^ 32

/-- `struct.unpack('>i', fh.read(4))`: read 4 bytes at `p` as a signed
big-endian 32-bit integer, advancing the position; fewer than 4 bytes
available raises `struct.error`. -/
def readS32 (buf : List Nat) (p : Nat) : Except String (Int × Nat) :=
  let b := (buf.drop p).take 4
  if b.length = 4 then .ok (toSigned32 (bytes_to_int b), p + 4)
  else .error "struct.error"

/-- `_ID3._parse_xing_header(fh)` with `fh` positioned at the `Xing`
marker: skip the 4 marker bytes, read the flag word, then conditionally
frame count (flag 1), byte count (flag 2), skip the TOC (flag 4) and
the VBR scale (flag 8); returns `(frames, byte_count)` and the final
position. -/
def parse_xing_header (buf : List Nat) (start : Nat) :
    Except String (Int × Int × Nat) := do
  let (header_flags, p1) ← readS32 buf (start + 4)
  let (frames, p2) ←
    if Int.land header_flags 1 ≠ 0 then readS32 buf p1 else pure (0, p1)
  let (byte_count, p3) ←
    if Int.land header_flags 2 ≠ 0 then readS32 buf p2 else pure (0, p2)
  let p4 := if Int.land header_flags 4 ≠ 0 then p3 + 100 else p3
  let p5 := if Int.land header_flags 8 ≠ 0 then p4 + 4 else p4
  .ok (frames, byte_count, p5)

/-- `_ID3.samplerates` (row 1 is the reserved MPEG version). -/
def samplerates_table : List (List Nat) :=
  [[11025, 12000, 8000], [], [22050, 24000, 16000], [44100, 48000, 32000]]

/-- `_ID3.v1l1`. -/
def v1l1 : List Nat :=
  [0, 32, 64, 96, 128, 160, 192, 224, 256, 288, 320, 352, 384, 416, 448, 0]

/-- `_ID3.v1l2`. -/
def v1l2 : List Nat :=
  [0, 32, 48, 56, 64, 80, 96, 112, 128, 160, 192, 224, 256, 320, 384, 0]

/-- `_ID3.v1l3`. -/
def v1l3 : List Nat :=
  [0, 32, 40, 48, 56, 64, 80, 96, 112, 128, 160, 192, 224, 256, 320, 0]

/-- `_ID3.v2l1`. -/
def v2l1 : List Nat :=
  [0, 32, 48, 56, 64, 80, 96, 112, 128, 144, 160, 176, 192, 224, 256, 0]

/-- `_ID3.v2l2` (also `v2l3`). -/
def v2l2 : List Nat :=
  [0, 8, 16, 24, 32, 40, 48, 56, 64, 80, 96, 112, 128, 144, 160, 0]

/-- `_ID3.bitrate_by_version_by_layer` (None entries become `[]`). -/
def bitrate_table : List (List (List Nat)) :=
  [[[], v2l2, v2l2, v2l1], [], [[], v2l2, v2l2, v2l1], [[], v1l3, v1l2, v1l1]]

/-- `_ID3.channels_per_channel_mode`. -/
def channels_per_channel_mode : List Nat := [2, 2, 2, 1]

/-- `b'Xing'`. -/
def xingMarker : List Nat := [88, 105, 110, 103]

/-- The loop state of `_ID3._determine_duration`. -/
structure Mp3State where
  frames : Nat
  bitrate_accu : Nat
  frame_size_accu : Nat
  last_bitrates : List Nat
  audio_offset : Nat
  channels : Option Nat
  samplerate : Option Nat
deriving DecidableEq, Repr

/-- The state on entering the frame-scan loop. -/
def mp3InitState : Mp3State :=
  { frames := 0, bitrate_accu := 0, frame_size_accu := 0,
    last_bitrates := [], audio_offset := 0, channels := none,
    samplerate := none }

/-- The audio properties `_ID3._determine_duration` assigns. -/
structure Mp3Result where
  channels : Option Nat
  samplerate : Option Nat
  duration : Option Rat
  bitrate : Option Rat
deriving DecidableEq, Repr

/-- The EOF exit of `_ID3._determine_duration`: on `len(b) < 4`, set
`bitrate = bitrate_accu / frames` when frames were seen, and after the
loop `duration = frames * 1152 / samplerate` when a sample rate is
known (and non-zero, per Python truthiness). -/
def mp3Finalize (st : Mp3State) : Mp3Result :=
  { channels := st.channels, samplerate := st.samplerate,
    bitrate :=
      if st.frames ≠ 0 then some ((st.bitrate_accu : Rat) / (st.frames : Rat))
      else none,
    duration :=
      match st.samplerate with
      | some sr =>
        if sr ≠ 0 then some (((st.frames * 1152 : Nat) : Rat) / (sr : Rat))
        else none
      | none => none }

/-- The frame-scan loop of `_ID3._determine_duration`, fuel-bounded.
Peeks 4 header bytes at `pos`; an invalid sync candidate advances to
the next `0xFF` byte (at least one byte); a valid first frame looks for
a `Xing` marker in the remaining buffer and, when its frame and byte
counts are both positive, returns the fast-path duration
`frames * (576 if mpeg_id <= 2 else 1152) / samplerate` and bitrate
`byte_count * 8 / duration / 1000`; otherwise frames are counted, with
CBR detection over the first 5 frame bitrates and an estimation cap of
`(30.0 * 44100) // 1152 = 1148` frames, both of which extrapolate the
duration from `filesize - 128 - audio_offset` over the mean frame size.
(The `frame_length - 4` body skip uses truncated subtraction; with the
embedded bitrate tables a valid frame always has `frame_length >= 24`.) -/
def mp3Scan (fuel : Nat) (buf : List Nat) (pos : Nat)
    (filesize fileOffset : Nat) (st : Mp3State) :
    Except String Mp3Result :=
  match fuel with
  | 0 => .error "fuel exhausted"
  | fuel + 1 =>
    let b := buf.drop pos
    if b.length < 4 then .ok (mp3Finalize st)
    else
      let b0 := b.getD 0 0
      let conf := b.getD 1 0
      let bitrate_freq := b.getD 2 0
      let rest := b.getD 3 0
      let br_id := (bitrate_freq >>> 4) &&& 0x0F
      let sr_id := (bitrate_freq >>> 2) &&& 0x03
      let padding := if 0 < bitrate_freq &&& 0x02 then 1 else 0
      let mpeg_id := (conf >>> 3) &&& 0x03
      let layer_id := (conf >>> 1) &&& 0x03
      let channel_mode := (rest >>> 6) &&& 0x03
      if ¬(255 < b0 ∨ (b0 = 255 ∧ 224 < conf)) ∨ 14 < br_id ∨ br_id = 0
          ∨ sr_id = 3 ∨ layer_id = 0 ∨ mpeg_id = 1 then
        let idx :=
          match findSeq (b.drop 1) [255] with
          | some i => i + 1
          | none => b.length
        mp3Scan fuel buf (pos + max idx 1) filesize fileOffset st
      else
        let channels := channels_per_channel_mode.getD channel_mode 0
        let frame_bitrate :=
          ((bitrate_table.getD mpeg_id []).getD layer_id []).getD br_id 0
        let samplerate := (samplerates_table.getD mpeg_id []).getD sr_id 0
        let st := { st with channels := some channels,
                            samplerate := some samplerate }
        match (if st.frames = 0 then findSeq b xingMarker else none) with
        | some off =>
          match parse_xing_header buf (pos + off) with
          | .error e => .error e
          | .ok (xframes, byte_count, pnew) =>
            if 0 < xframes ∧ 0 < byte_count then
              let spf : Nat := if mpeg_id ≤ 2 then 576 else 1152
              let duration : Rat :=
                ((xframes * (spf : Int) : Int) : Rat) / (samplerate : Rat)
              let bitrate : Rat :=
                ((byte_count * 8 : Int) : Rat) / duration / 1000
              .ok { channels := some channels, samplerate := some samplerate,
                    duration := some duration, bitrate := some bitrate }
            else mp3Scan fuel buf pnew filesize fileOffset st
        | none =>
          let frames := st.frames + 1
          let bitrate_accu := st.bitrate_accu + frame_bitrate
          let audio_offset :=
            if frames = 1 then fileOffset + pos else st.audio_offset
          let last_bitrates :=
            if frames ≤ 5 then st.last_bitrates ++ [frame_bitrate]
            else st.last_bitrates
          let frame_length := 144000 * frame_bitrate / samplerate + padding
          let frame_size_accu := st.frame_size_accu + frame_length
          let is_cbr : Bool :=
            frames == 5 &&
              (match last_bitrates with
               | x :: xs => xs.all (fun y => y == x)
               | [] => false)
          if frames = 1148 ∨ is_cbr then
            let audio_stream_size : Int :=
              (filesize : Int) - 128 - (audio_offset : Int)
            let est_frame_count : Rat :=
              (audio_stream_size : Rat)
                / ((frame_size_accu : Rat) / (frames : Rat))
            .ok { channels := st.channels, samplerate := st.samplerate,
                  duration :=
                    some (est_frame_count * 1152 / (samplerate : Rat)),
                  bitrate := some ((bitrate_accu : Rat) / (frames : Rat)) }
          else
            let pos2 :=
              if 1 < frame_length then pos + 4 + (frame_length - 4)
              else pos + 4
            mp3Scan fuel buf pos2 filesize fileOffset
              { st with frames := frames, bitrate_accu := bitrate_accu,
                        frame_size_accu := frame_size_accu,
                        last_bitrates := last_bitrates,
                        audio_offset := audio_offset }

/-- A 20-byte buffer: one MPEG-1 Layer III frame header at 44100 Hz
followed by a `Xing` header with flags 3, frame count 100 and byte
count 144000. -/
def c2buf : List Nat :=
  [255, 251, 144, 0, 88, 105, 110, 103,
   0, 0, 0, 3, 0, 0, 0, 100, 0, 2, 50, 128]

/-! ### MP4 atom traversal (`_MP4._traverse_atoms`) -/

/-- The declarative atom tree: a dict value in the Python `path` is
either another dict (descend) or a callable (decode the atom payload in
place); atom types are 4-byte codes. -/
inductive AtomTree
  | node (children : List (List Nat × AtomTree))
  | leaf

/-- `b'meta'` — a member of `_MP4.VERSIONED_ATOMS`. -/
def metaType : List Nat := [109, 101, 116, 97]

/-- `b'stsd'` — a member of both `_MP4.VERSIONED_ATOMS` and
`_MP4.FLAGGED_ATOMS`. -/
def stsdType : List Nat := [115, 116, 115, 100]

/-- `_MP4._traverse_atoms` over a byte buffer, fuel-bounded: reads an
8-byte header (4-byte big-endian size inclusive of the header, 4-byte
type), computes `atom_size = size - 8`; `atom_size <= 0` reads the next
header immediately (`continue`); version/flag fields of `meta`/`stsd`
are skipped; a dict entry descends with `stop_pos` at the atom end, a
callable entry reads the payload (recorded here as a handled
`(type, payload)` pair), no entry seeks over the atom; after each atom,
`stop_pos and fh.tell() >= stop_pos` returns to the parent. The result
is the list of handled leaf atoms in traversal order plus the final
stream position. -/
def mp4Traverse : Nat → List Nat → Nat → List (List Nat × AtomTree) →
    Option Nat → List (List Nat × List Nat) × Nat
  | 0, _, pos, _, _ => ([], pos)
  | fuel + 1, buf, pos, children, stopPos =>
    let header := (buf.drop pos).take 8
    if header.length < 8 then ([], pos)
    else
      let atomSize : Int := (bytes_to_int (header.take 4) : Int) - 8
      let atomType := header.drop 4
      if atomSize ≤ 0 then mp4Traverse fuel buf (pos + 8) children stopPos
      else
        let pos1 := pos + 8
          + (if atomType = metaType ∨ atomType = stsdType then 4 else 0)
          + (if atomType = stsdType then 4 else 0)
        let step :=
          match children.lookup atomType with
          | some (AtomTree.node sub) =>
            mp4Traverse fuel buf pos1 sub (some (pos1 + atomSize.toNat))
          | some AtomTree.leaf =>
            let payload := (buf.drop pos1).take atomSize.toNat
            ([(atomType, payload)], pos1 + payload.length)
          | none => ([], pos1 + atomSize.toNat)
        let halt : Bool :=
          match stopPos with
          | some sp => sp ≠ 0 ∧ sp ≤ step.2
          | none => false
        if halt then step
        else
          let next := mp4Traverse fuel buf step.2 children stopPos
          (step.1 ++ next.1, next.2)

/-- An atom path mapping only the type `tst ` to a leaf handler. -/
def c7path : List (List Nat × AtomTree) := [([116, 115, 116, 32], .leaf)]

/-- An empty atom (declared size 8, type `free`) followed by a 12-byte
`tst ` atom with payload `[1, 2, 3, 4]`. -/
def c7buf : List Nat :=
  [0, 0, 0, 8, 102, 114, 101, 101,
   0, 0, 0, 12, 116, 115, 116, 32, 1, 2, 3, 4]

/-! ### FLAC STREAMINFO (`_Flac._parse_tag`, lines 1282-1314) -/

/-- Outcome of the STREAMINFO branch of `_Flac._parse_tag`: fewer than
34 bytes read aborts the block loop (`break`); otherwise the decoded
audio properties. -/
inductive FlacInfoResult
  | breakLoop
  | fields (samplerate channels bitdepth totalSamples : Nat)
      (duration : Rat) (bitrate : Option Rat)
deriving DecidableEq, Repr

/-- The STREAMINFO branch of `_Flac._parse_tag` applied to the bytes
read for the block (`fh.read(size)`): a read of fewer than 34 bytes
breaks the loop; `struct.unpack('HH3s3s8B16s', ...)` demands exactly 34
bytes and raises `struct.error` otherwise; then
`samplerate = bytes_to_int(bytes 10..12) >> 4`,
`channels = ((byte12 >> 1) & 0x07) + 1`,
`bitdepth = ((byte12 & 1) << 4) + ((byte13 & 0xF0) >> 4) + 1`,
`total_samples = bytes_to_int((byte13 & 0x0F,) + bytes 14..17)`,
`duration = total_samples / samplerate` (ZeroDivisionError when the
sample-rate field is zero) and, when `duration > 0`,
`bitrate = filesize / duration * 8 / 1000`. -/
def flacParseStreaminfo (filesize : Rat) (info : List Nat) :
    Except String FlacInfoResult :=
  if info.length < 34 then .ok .breakLoop
  else if info.length ≠ 34 then
    .error "struct.error: unpack requires a buffer of 34 bytes"
  else
    let b := fun i => info.getD i 0
    let samplerate := bytes_to_int [b 10, b 11, b 12] >>> 4
    let channels := ((b 12 >>> 1) &&& 0x07) + 1
    let bitdepth := ((b 12 &&& 1) <<< 4) + ((b 13 &&& 0xF0) >>> 4) + 1
    let totalSamples := bytes_to_int [b 13 &&& 0x0F, b 14, b 15, b 16, b 17]
    if samplerate = 0 then .error "ZeroDivisionError"
    else
      let duration : Rat := (totalSamples : Rat) / (samplerate : Rat)
      let bitrate : Option Rat :=
        if 0 < duration then some (filesize / duration * 8 / 1000) else none
      .ok (.fields samplerate channels bitdepth totalSamples duration bitrate)

/-! ### Facade: `TinyTag.get`, `TinyTag._load` and the format sniffer -/

/-- The container decoders selectable by the sniffer. -/
inductive ParserKind
  | id3 | ogg | wave | flac | wma | mp4 | aiff
deriving DecidableEq, Repr

/-- `TinyTag._file_extension_mapping`, in dict order. -/
def fileExtensionMapping : List (List String × ParserKind) :=
  [([".mp1", ".mp2", ".mp3"], .id3),
   ([".oga", ".ogg", ".opus", ".spx"], .ogg),
   ([".wav"], .wave),
   ([".flac"], .flac),
   ([".wma"], .wma),
   ([".m4b", ".m4a", ".m4r", ".m4v", ".mp4", ".aax", ".aaxc"], .mp4),
   ([".aiff", ".aifc", ".aif", ".afc"], .aiff)]

/-- `filename.lower()` on the filename bytes: Python's `bytes.lower`
only folds the ASCII letters A-Z. -/
def asciiLower (s : String) : String :=
  String.mk (s.data.map (fun c =>
    if 65 ≤ c.toNat ∧ c.toNat ≤ 90 then Char.ofNat (c.toNat + 32) else c))

/-- Python's `endswith` on the filename bytes. -/
def strEndsWith (s suf : String) : Bool :=
  suf.data.isSuffixOf s.data

/-- `TinyTag._get_parser_for_filename`: the lower-cased filename is
matched with `endswith` against each extension tuple in mapping order;
the first match wins. -/
def getParserForFilename (filename : String) : Option ParserKind :=
  let fn := asciiLower filename
  (fileExtensionMapping.find?
    (fun p => p.1.any (fun ext => strEndsWith fn ext))).map (fun p => p.2)

/-- A container decoder as the facade sees it: the two passes
`_parse_tag` and `_determine_duration`, each mutating the record or
raising (`Except.error`). -/
structure ParserImpl where
  parseTag : Record → Except String Record
  determineDuration : Record → Except String Record

/-- `TinyTag._load(tags, duration)`: run `_parse_tag` when `tags` is
requested, then `_determine_duration` when `duration` is requested
(the file-rewind between the passes has no functional counterpart
here); an exception in either pass propagates. -/
def loadRecord (p : ParserImpl) (tags duration : Bool) (r : Record) :
    Except String Record := do
  let r1 ← if tags then p.parseTag r else pure r
  if duration then p.determineDuration r1 else pure r1

/-- What `TinyTag.get` hands back: the accumulated record plus the
`filesize` attribute set from the stream length. -/
structure GetResult where
  record : Record
  filesize : Nat

/-- `TinyTag.get`: pick a parser class (extension first, then magic
bytes, else the `TinyTagException` from `_get_parser_class`); create an
empty record with `filesize` set; call `_load` only when `filesize > 0`,
wrapping any exception from it as `Failed to parse file: ...`. -/
def tinytagGet (filename : String) (magic : Option ParserKind)
    (impl : ParserKind → ParserImpl) (filesize : Nat)
    (tags duration : Bool) : Except String GetResult :=
  let parserClass :=
    match getParserForFilename filename with
    | some k => some k
    | none => magic
  match parserClass with
  | none => .error "No tag reader found to support filetype"
  | some k =>
    if filesize > 0 then
      match loadRecord (impl k) tags duration emptyRecord with
      | .ok r => .ok ⟨r, filesize⟩
      | .error e => .error ("Failed to parse file: " ++ e)
    else .ok ⟨emptyRecord, filesize⟩

/-- A record holding `track = 5`, used to probe `_set_field`. -/
def recTrack5 : Record :=
  { emptyRecord with fields := fun k => if k = "track" then some (.int 5) else none }

/-- A record holding `title = "A"`, used to probe `_set_field`. -/
def recTitleA : Record :=
  { emptyRecord with fields := fun k => if k = "title" then some (.str "A") else none }

/-- A 34-byte STREAMINFO payload encoding sample rate 44100, channels 2,
bit depth 16, total samples 44100 (bytes 10-17 carry the bit-packed
fields; min/max block and frame sizes and the MD5 signature are zero). -/
def c3demo : List Nat :=
  [0, 0, 0, 0, 0, 0, 0, 0, 0, 0,
   10, 196, 66, 240, 0, 0, 172, 68,
   0, 0, 0, 0, 0, 0, 0, 0, 0, 0, 0, 0, 0, 0, 0, 0]

/-- A record holding only `title` and `track`, the shape produced by a
Vorbis comment block with a `title` and a `tracknumber` entry, or by an
ID3v2 tag with a `TIT2` and a `TRCK` frame (both store `track` as `int`). -/
def titleTrackRecord (t : String) (n : Int) : Record :=
  { emptyRecord with fields := fun k =>
      if k = "title" then some (.str t)
      else if k = "track" then some (.int n) else none }

end Tinytag

namespace Tinytag

theorem mergeValue_nonstr (old : Option Value) (v : Value) (hv : v.isStr = false) :
    mergeValue old v = some v := by
  unfold mergeValue; rw [if_neg]; simp [hv]

theorem mergeValue_none (v : Value) : mergeValue none v = some v := by
  unfold mergeValue; split <;> rfl

theorem mergeValue_concat (A B : String) (hA0 : A ≠ "") (hAB : A ≠ B) :
    mergeValue (some (.str A)) (.str B) = some (.str (A ++ "\x00" ++ B)) := by
  simp [mergeValue, Value.isStr, Value.truthy, hA0, hAB]

theorem setField_empty_str (r : Record) (f : String) :
    setField r f (.str "") = some r := by
  simp [setField]

theorem setField_plain (r : Record) (f : String) (v : Value)
    (hv : v ≠ .str "") (hf : f.startsWith "extra." = false) :
    setField r f v = (mergeValue (r.fields f) v).map
      (fun w =>
        { r with fields := fun k => if k = f then some w else r.fields k }) := by
  unfold setField
  rw [if_neg hv, if_neg (by simp [hf])]

theorem and_mask7 (x : Nat) : x &&& 7 = x % 8 := by
  have := Nat.and_pow_two_sub_one_eq_mod x 3
  norm_num at this
  exact this

theorem and_mask15 (x : Nat) : x &&& 15 = x % 16 := by
  have := Nat.and_pow_two_sub_one_eq_mod x 4
  norm_num at this
  exact this

theorem and_even (x m : Nat) (hm : m % 2 = 0) : (x &&& m) % 2 = 0 := by
  rcases Nat.mod_two_eq_zero_or_one (x &&& m) with h | h
  · exact h
  · rw [Nat.and_mod_two_eq_one] at h
    omega

theorem and_mask240 (x : Nat) : x &&& 240 = x / 16 % 16 * 16 := by
  have s1 : (x &&& 240) / 2 = x / 2 &&& 120 := by
    rw [Nat.and_div_two]
  have s2 : (x / 2 &&& 120) / 2 = x / 4 &&& 60 := by
    rw [Nat.and_div_two, Nat.div_div_eq_div_mul]
  have s3 : (x / 4 &&& 60) / 2 = x / 8 &&& 30 := by
    rw [Nat.and_div_two, Nat.div_div_eq_div_mul]
  have s4 : (x / 8 &&& 30) / 2 = x / 16 &&& 15 := by
    rw [Nat.and_div_two, Nat.div_div_eq_div_mul]
  have m1 : (x &&& 240) % 2 = 0 := and_even x 240 (by norm_num)
  have m2 : (x / 2 &&& 120) % 2 = 0 := and_even (x / 2) 120 (by norm_num)
  have m3 : (x / 4 &&& 60) % 2 = 0 := and_even (x / 4) 60 (by norm_num)
  have m4 : (x / 8 &&& 30) % 2 = 0 := and_even (x / 8) 30 (by norm_num)
  have hfin : x / 16 &&& 15 = x / 16 % 16 := and_mask15 (x / 16)
  omega

theorem streaminfo_bits (b10 b11 b12 b13 b14 b15 b16 b17 : Nat)
    (h10 : b10 < 256) (h11 : b11 < 256) (h12 : b12 < 256) (h13 : b13 < 256)
    (h14 : b14 < 256) (h15 : b15 < 256) (h16 : b16 < 256) (h17 : b17 < 256) :
    bytes_to_int [b10, b11, b12] >>> 4
        = bytes_to_int [b10, b11, b12, b13, b14, b15, b16, b17] / 2 ^ 44 ∧
    ((b12 >>> 1) &&& 0x07) + 1
        = bytes_to_int [b10, b11, b12, b13, b14, b15, b16, b17] / 2 ^ 41 % 8
            + 1 ∧
    ((b12 &&& 1) <<< 4) + ((b13 &&& 0xF0) >>> 4) + 1
        = bytes_to_int [b10, b11, b12, b13, b14, b15, b16, b17] / 2 ^ 36 % 32
            + 1 ∧
    bytes_to_int [b13 &&& 0x0F, b14, b15, b16, b17]
        = bytes_to_int [b10, b11, b12, b13, b14, b15, b16, b17] % 2 ^ 36 := by
  simp only [bytes_to_int, List.foldl, Nat.shiftLeft_eq,
    Nat.shiftRight_eq_div_pow, and_mask7, and_mask15, and_mask240,
    Nat.and_one_is_mod]
  refine ⟨by omega, by omega, by omega, by omega⟩

theorem pageHeader_length (g n : Nat) : (pageHeader g n).length = 27 := by
  simp [pageHeader, leBytes8, leBytes4]

theorem pageHeader_take4 (g n : Nat) : (pageHeader g n).take 4 = oggMagic := by
  simp [pageHeader, oggMagic]

theorem pageHeader_getD4 (g n : Nat) : (pageHeader g n).getD 4 0 = 0 := by
  simp [pageHeader, List.getD]

theorem pageHeader_granule (g n : Nat) :
    ((pageHeader g n).drop 6).take 8 = leBytes8 g := by
  simp [pageHeader, leBytes8]

theorem pageHeader_getD26 (g n : Nat) : (pageHeader g n).getD 26 0 = n := by
  simp [pageHeader, leBytes8, leBytes4, List.getD]

theorem leNat_leBytes8 (g : Nat) (hg : g < 2 ^ 64) :
    leNat (leBytes8 g) = g := by
  simp [leNat, leBytes8, List.foldr]
  omega

theorem toSigned64_small (g : Nat) (hg : g < 2 ^ 63) :
    toSigned64 (g : Nat) = (g : Int) := by
  simp [toSigned64]
  omega

theorem oggSegments_single255 (buf : List Nat) (rp : Nat) (prev : List Nat) :
    oggSegments buf [255] rp 0 prev
      = ([], prev ++ (buf.drop rp).take 255, rp + 255) := by
  simp [oggSegments]

theorem oggSegments_singleSmall (buf : List Nat) (rp : Nat) (prev : List Nat)
    (s : Nat) (hs : s < 255) :
    oggSegments buf [s] rp 0 prev
      = ([prev ++ (buf.drop rp).take s], [], rp + s) := by
  simp [oggSegments, hs]

theorem parsePages_page (fuel : Nat) (buf : List Nat) (pos : Nat)
    (prev : List Nat) (maxS : Int) (g n : Nat) (segtable rest : List Nat)
    (hg : g < 2 ^ 63)
    (hdrop : buf.drop pos = pageHeader g n ++ (segtable ++ rest))
    (hseg : segtable.length = n) :
    parsePages (fuel + 1) buf pos prev maxS
      = (let res := oggSegments buf segtable (pos + 27 + n) 0 prev
         match parsePages fuel buf res.2.2 res.2.1 (max maxS (g : Int)) with
         | .ok (r, m) => .ok (res.1 ++ r, m)
         | .error e => .error e) := by
  have htake : (buf.drop pos).take 27 = pageHeader g n := by
    rw [hdrop]
    exact List.take_left' (pageHeader_length g n)
  have hdrop27 : buf.drop (pos + 27) = segtable ++ rest := by
    rw [← List.drop_drop, hdrop, List.drop_left' (pageHeader_length g n)]
  simp only [parsePages, htake, hdrop27, pageHeader_length,
    pageHeader_take4, pageHeader_getD4, pageHeader_granule,
    pageHeader_getD26, leNat_leBytes8 g (by omega), toSigned64_small g hg,
    List.take_left' hseg, lt_self_iff_false, if_false, ne_eq, hseg]
  simp

theorem parsePages_twoPage (A B : List Nat) (g1 g2 k : Nat)
    (hA : A.length = 255) (hB : B.length = k) (hk : k < 255)
    (hg1 : g1 < 2 ^ 63) (hg2 : g2 < 2 ^ 63) :
    parsePages 3
        (mkOggPage g1 [255] A ++ mkOggPage g2 [k] B) 0 [] 0
      = .ok ([A ++ B], max (max 0 (g1 : Int)) (g2 : Int)) := by
  set P2 := mkOggPage g2 [k] B with hP2
  set buf := mkOggPage g1 [255] A ++ P2 with hbuf
  have hsplit1 : buf.drop 0 = pageHeader g1 1 ++ ([255] ++ (A ++ P2)) := by
    simp [hbuf, mkOggPage, List.append_assoc]
  have hstep1 := parsePages_page 2 buf 0 [] 0 g1 1 [255] (A ++ P2)
    hg1 hsplit1 (by simp)
  rw [hstep1, oggSegments_single255]
  have hd28 : buf.drop (0 + 27 + 1) = A ++ P2 := by
    rw [hbuf]
    have : mkOggPage g1 [255] A ++ P2
        = (pageHeader g1 1 ++ [255]) ++ (A ++ P2) := by
      simp [mkOggPage, List.append_assoc]
    rw [this]
    exact List.drop_left' (by simp [pageHeader_length])
  rw [hd28, List.take_left' hA]
  have hsplit2 : buf.drop (0 + 27 + 1 + 255)
      = pageHeader g2 1 ++ ([k] ++ B) := by
    rw [hbuf]
    have : mkOggPage g1 [255] A ++ P2
        = ((pageHeader g1 1 ++ [255]) ++ A)
            ++ (pageHeader g2 1 ++ ([k] ++ B)) := by
      simp [mkOggPage, hP2, List.append_assoc]
    rw [this]
    exact List.drop_left' (by simp [pageHeader_length, hA])
  have hstep2 := parsePages_page 1 buf (0 + 27 + 1 + 255)
    ([] ++ A) (max 0 (g1 : Int)) g2 1 [k] B hg2 hsplit2 (by simp)
  simp only []
  rw [show (2 : Nat) = 1 + 1 from rfl, hstep2,
    oggSegments_singleSmall _ _ _ _ hk]
  have hd311 : buf.drop (0 + 27 + 1 + 255 + 27 + 1) = B := by
    rw [hbuf]
    have : mkOggPage g1 [255] A ++ P2
        = ((((pageHeader g1 1 ++ [255]) ++ A)
            ++ pageHeader g2 1) ++ [k]) ++ B := by
      simp [mkOggPage, hP2, List.append_assoc]
    rw [this]
    exact List.drop_left' (by simp [pageHeader_length, hA])
  have htk : List.take k B = B := by rw [← hB]; exact List.take_length B
  rw [hd311, htk]
  have hend : buf.drop (0 + 27 + 1 + 255 + 27 + 1 + k) = [] := by
    apply List.drop_eq_nil_of_le
    rw [hbuf, hP2]
    simp [mkOggPage, pageHeader_length, hA, hB]
    omega
  simp only []
  rw [show (1 : Nat) = 0 + 1 from rfl]
  simp only [parsePages, hend]
  simp

theorem bind_ok_elim (a : Record) (f : Record → Except String Record) :
    (do let y ← Except.ok a
        f y : Except String Record) = f a := rfl

theorem waveStep_bitdepth (st : WaveState) (c : WaveChunk) (t : WaveState)
    (h : ∃ b, st.bitdepth = some b ∧ 1 ≤ b) (hs : waveStep st c = .ok t) :
    ∃ b, t.bitdepth = some b ∧ 1 ≤ b := by
  cases c with
  | fmt ch sr bd =>
    simp only [waveStep, Except.ok.injEq] at hs
    subst hs
    by_cases hbd : bd = 0
    · exact ⟨1, by simp [hbd], le_refl 1⟩
    · exact ⟨bd, by simp [hbd], Nat.one_le_iff_ne_zero.mpr hbd⟩
  | data size =>
    simp only [waveStep] at hs
    split at hs
    · split at hs
      · exact absurd hs (by simp)
      · split at hs
        · exact absurd hs (by simp)
        · split at hs
          · exact absurd hs (by simp)
          · simp only [Except.ok.injEq] at hs
            subst hs
            exact h
    · simp only [Except.ok.injEq] at hs
      subst hs
      exact h
  | other =>
    simp only [waveStep, Except.ok.injEq] at hs
    subst hs
    exact h

theorem waveStep_no_bitdepth_div (st : WaveState) (c : WaveChunk)
    (h : ∃ b, st.bitdepth = some b ∧ 1 ≤ b) :
    waveStep st c ≠ .error "division by zero: bitdepth" := by
  obtain ⟨b, hb, hb1⟩ := h
  cases c with
  | fmt ch sr bd => simp [waveStep]
  | data size =>
    rcases hch : st.channels with _ | ch <;>
      rcases hsr : st.samplerate with _ | sr <;>
        simp only [waveStep, hch, hsr, hb] <;> try simp
    split_ifs with h1 h2 h3
    · simp
    · simp
    · omega
    · simp
  | other => simp [waveStep]

theorem waveRunFrom_bitdepth (chunks : List WaveChunk) (st : WaveState)
    (h : ∃ b, st.bitdepth = some b ∧ 1 ≤ b) :
    (∀ t, waveRunFrom st chunks = .ok t →
        ∃ b, t.bitdepth = some b ∧ 1 ≤ b) ∧
      waveRunFrom st chunks ≠ .error "division by zero: bitdepth" := by
  induction chunks generalizing st with
  | nil =>
    refine ⟨fun t ht => ?_, by simp [waveRunFrom]⟩
    simp only [waveRunFrom, Except.ok.injEq] at ht
    exact ht ▸ h
  | cons c cs ih =>
    have hstep := waveStep_no_bitdepth_div st c h
    cases hw : waveStep st c with
    | error e =>
      refine ⟨fun t ht => ?_, fun hcontra => ?_⟩
      · simp [waveRunFrom, hw] at ht
      · simp only [waveRunFrom, hw] at hcontra
        exact hstep (hw.trans hcontra)
    | ok t =>
      have ht := waveStep_bitdepth st c t h hw
      refine ⟨fun u hu => ?_, fun hcontra => ?_⟩
      · simp only [waveRunFrom, hw] at hu
        exact (ih t ht).1 u hu
      · simp only [waveRunFrom, hw] at hcontra
        exact (ih t ht).2 hcontra

end Tinytag

/-- C5: decoding with `_calc_size(·, 7)` is a left inverse of the 4-byte
synchsafe encoding on every 28-bit value. -/
theorem c5_synchsafe_roundtrip (n : Nat) (h : n < 2 ^ 28) :
    Tinytag.calc_size (Tinytag.synchsafeEncode n) 7 = n := by
  simp only [Tinytag.calc_size, Tinytag.synchsafeEncode, List.foldl,
    Nat.shiftLeft_eq]
  omega

/-- C5 witness: the round-trip at the concrete 28-bit value 123456789. -/
theorem c5_synchsafe_roundtrip_witness :
    123456789 < 2 ^ 28 ∧
      Tinytag.calc_size (Tinytag.synchsafeEncode 123456789) 7 = 123456789 :=
  ⟨by decide, c5_synchsafe_roundtrip 123456789 (by decide)⟩

/-- C1 counterexample: `_set_field` overwrites `track = 5` with the
falsy value `0` — an existing value IS overwritten by a later write
whose new value is zero, contradicting the claim's overwrite guard
(that guard lives in `_update`, not in `_set_field`). -/
theorem c1_set_field_zero_overwrites :
    ((Tinytag.setField Tinytag.recTrack5 "track" (.int 0)).map
        (fun r => r.fields "track")) = some (some (.int 0)) ∧
      (Tinytag.Value.int 0).truthy = false ∧ (5 : Int) ≠ 0 := by
  refine ⟨by decide, by decide, by decide⟩

/-- C1 amended: for `_set_field`, (1) writing an empty string leaves the
record unchanged; (2) writing a non-empty string B over a different
non-empty string A stores `A ++ '\x00' ++ B`; (3) but a non-string value
is stored unconditionally, replacing whatever the field held — the
non-empty/non-zero overwrite guard is not part of `_set_field`. -/
theorem c1_set_field_amended (r : Tinytag.Record) (f A B : String)
    (v : Tinytag.Value) (hf : f.startsWith "extra." = false)
    (hA : r.fields f = some (.str A)) (hA0 : A ≠ "") (hB : B ≠ "")
    (hAB : A ≠ B) (hv : v.isStr = false) :
    Tinytag.setField r f (.str "") = some r ∧
    (Tinytag.setField r f (.str B)).map (fun r2 => r2.fields f)
        = some (some (.str (A ++ "\x00" ++ B))) ∧
    (Tinytag.setField r f v).map (fun r2 => r2.fields f) = some (some v) := by
  refine ⟨Tinytag.setField_empty_str r f, ?_, ?_⟩
  · rw [Tinytag.setField_plain r f (.str B) (by simp [hB]) hf, hA,
      Tinytag.mergeValue_concat A B hA0 hAB]
    simp
  · have hvs : v ≠ .str "" := by
      intro h; rw [h] at hv; simp [Tinytag.Value.isStr] at hv
    rw [Tinytag.setField_plain r f v hvs hf, Tinytag.mergeValue_nonstr _ v hv]
    simp

/-- C1 witness: the amended statement at `title = "A"`, writing `""`,
`"B"` and the non-string `0`. -/
theorem c1_set_field_amended_witness :
    Tinytag.setField Tinytag.recTitleA "title" (.str "") = some Tinytag.recTitleA ∧
    (Tinytag.setField Tinytag.recTitleA "title" (.str "B")).map
        (fun r2 => r2.fields "title") = some (some (.str ("A" ++ "\x00" ++ "B"))) ∧
    (Tinytag.setField Tinytag.recTitleA "title" (.int 7)).map
        (fun r2 => r2.fields "title") = some (some (.int 7)) :=
  c1_set_field_amended Tinytag.recTitleA "title" "A" "B" (.int 7)
    (by decide) (by decide) (by decide) (by decide) (by decide) (by decide)

/-- C6 counterexample: a Vorbis comment `tracknumber=3` merged first and
an ID3v2 `TRCK` of 5 merged afterwards leave `track = 5`: the ID3v2
value REPLACES the Vorbis value on a conflicting integer field, so the
Vorbis value does not take precedence as the claim states. -/
theorem c6_id3_overwrites_vorbis_int :
    ((Tinytag.flacMergeTags [Tinytag.titleTrackRecord "V" 3]
        (some (Tinytag.titleTrackRecord "I" 5))).map
          (fun r => r.fields "track")) = some (some (.int 5)) ∧
      Tinytag.Value.int 5 ≠ Tinytag.Value.int 3 := by
  refine ⟨by decide, by decide⟩

set_option maxHeartbeats 1000000 in
/-- C6 amended: in `_Flac._parse_tag` the ID3v2 record is merged only
after all Vorbis comment blocks; on a conflicting string field the
earlier Vorbis value is kept first and the ID3v2 value is appended after
a NUL separator, while on a conflicting non-zero integer field the ID3v2
value replaces the Vorbis value. -/
theorem c6_flac_merge_amended (A B : String) (n m : Int)
    (hA0 : A ≠ "") (hB0 : B ≠ "") (hAB : A ≠ B) (hn : n ≠ 0) (hm : m ≠ 0) :
    (Tinytag.flacMergeTags [Tinytag.titleTrackRecord A n]
        (some (Tinytag.titleTrackRecord B m))).map
          (fun r => (r.fields "title", r.fields "track"))
      = some (some (.str (A ++ "\x00" ++ B)), some (.int m)) := by
  have ht : ("track".startsWith "extra.") = false := rfl
  have hti : ("title".startsWith "extra.") = false := rfl
  simp [ht, hti, Tinytag.flacMergeTags, Tinytag.update, Tinytag.updateKeys,
    Tinytag.titleTrackRecord, Tinytag.emptyRecord, Tinytag.setField,
    Tinytag.mergeValue, Tinytag.Value.isStr, Tinytag.Value.truthy,
    hA0, hB0, hAB, hn, hm]

/-- C6 witness: the amended statement at `title` values `"V"`/`"I"` and
`track` values 3/5. -/
theorem c6_flac_merge_amended_witness :
    (Tinytag.flacMergeTags [Tinytag.titleTrackRecord "V" 3]
        (some (Tinytag.titleTrackRecord "I" 5))).map
          (fun r => (r.fields "title", r.fields "track"))
      = some (some (.str ("V" ++ "\x00" ++ "I")), some (.int 5)) :=
  c6_flac_merge_amended "V" "I" 3 5 (by decide) (by decide) (by decide)
    (by decide) (by decide)

/-- C9: in `_Wave._parse_tag`, a `fmt ` chunk declaring bit depth 0
stores bit depth 1; the recorded bit depth after any chunk sequence is
always at least 1; and the duration computation on a `data` chunk never
divides by a zero bit depth. -/
theorem c9_wave_bitdepth_safe (chunks : List Tinytag.WaveChunk)
    (st : Tinytag.WaveState) (h : Tinytag.waveRun chunks = .ok st) :
    (∃ b, st.bitdepth = some b ∧ 1 ≤ b) ∧
    (∀ cs : List Tinytag.WaveChunk,
        Tinytag.waveRun cs ≠ .error "division by zero: bitdepth") ∧
    (∀ s ch sr, ∃ t, Tinytag.waveStep s (.fmt ch sr 0) = .ok t ∧
        t.bitdepth = some 1) := by
  have hinit : ∃ b, Tinytag.waveInit.bitdepth = some b ∧ 1 ≤ b :=
    ⟨16, rfl, by omega⟩
  refine ⟨(Tinytag.waveRunFrom_bitdepth chunks Tinytag.waveInit hinit).1 st h,
    fun cs => (Tinytag.waveRunFrom_bitdepth cs Tinytag.waveInit hinit).2,
    fun s ch sr => ⟨_, rfl, by simp [Tinytag.waveStep]⟩⟩

/-- C9 witness: a `fmt ` chunk declaring 2 channels, 44100 Hz, bit depth
0 followed by a 176400-byte `data` chunk: the stored bit depth is 1 and
the parse runs without a division by zero. -/
theorem c9_wave_bitdepth_safe_witness :
    Tinytag.waveRun [.fmt 2 44100 0, .data 176400]
        = .ok { channels := some 2, samplerate := some 44100,
                bitdepth := some 1, bitrate := some (441 / 5 : Rat),
                duration := some (16 : Rat) } ∧
      (∃ b, ({ channels := some 2, samplerate := some 44100,
               bitdepth := some 1, bitrate := some (441 / 5 : Rat),
               duration := some (16 : Rat) } : Tinytag.WaveState).bitdepth
          = some b ∧ 1 ≤ b) :=
  ⟨by simp only [Tinytag.waveRun, Tinytag.waveRunFrom, Tinytag.waveStep,
      Tinytag.waveInit]; norm_num,
    (c9_wave_bitdepth_safe [.fmt 2 44100 0, .data 176400] _
      (by simp only [Tinytag.waveRun, Tinytag.waveRunFrom, Tinytag.waveStep,
        Tinytag.waveInit]; norm_num)).1⟩

/-- C8 counterexample: with a decoder whose tag pass succeeds (leaving a
record) but whose duration pass raises, `TinyTag.get` raises the wrapped
exception instead of returning the accumulated tag fields: the partial
results are NOT retained when the failure occurs in the duration pass. -/
theorem c8_duration_failure_discards_tags :
    Tinytag.tinytagGet "song.mp3" none
        (fun _ => { parseTag := fun r => .ok r,
                    determineDuration := fun _ => .error "boom" })
        100 true true
      = .error ("Failed to parse file: " ++ "boom") := by
  rfl

/-- C8 amended: a fatal `UnsupportedFormat` (no parser found) or a
failure inside `_load` reaches the caller as a single failure naming the
root cause and no partial results; an exception raised in the duration
pass after a successful tag pass is likewise wrapped and propagated,
discarding the accumulated tag fields — they are returned (with duration
fields unset) only when the duration pass completes without raising. -/
theorem c8_get_error_amended (filename : String) (k : Tinytag.ParserKind)
    (magic : Option Tinytag.ParserKind)
    (impl : Tinytag.ParserKind → Tinytag.ParserImpl) (fs : Nat)
    (r1 : Tinytag.Record) (e : String) (hfs : 0 < fs)
    (hk : Tinytag.getParserForFilename filename = some k)
    (htag : (impl k).parseTag Tinytag.emptyRecord = .ok r1)
    (hdur : (impl k).determineDuration r1 = .error e) :
    Tinytag.tinytagGet filename magic impl fs true true
        = .error ("Failed to parse file: " ++ e) ∧
    (∀ fn2, Tinytag.getParserForFilename fn2 = none →
        Tinytag.tinytagGet fn2 none impl fs true true
          = .error "No tag reader found to support filetype") ∧
    (∀ p : Tinytag.ParserImpl, ∀ s1 s2 : Tinytag.Record,
        p.parseTag Tinytag.emptyRecord = .ok s1 →
        p.determineDuration s1 = .ok s2 →
        Tinytag.tinytagGet filename magic (fun _ => p) fs true true
          = .ok ⟨s2, fs⟩) := by
  refine ⟨?_, ?_, ?_⟩
  · simp only [Tinytag.tinytagGet, hk, Tinytag.loadRecord]
    simp [hfs, htag, Tinytag.bind_ok_elim, hdur]
  · intro fn2 h2
    simp only [Tinytag.tinytagGet, h2]
  · intro p s1 s2 h1 h2
    simp only [Tinytag.tinytagGet, hk, Tinytag.loadRecord]
    simp [hfs, h1, Tinytag.bind_ok_elim, h2]

/-- C8 witness: the amended statement at a concrete failing decoder. -/
theorem c8_get_error_amended_witness :
    Tinytag.tinytagGet "song.mp3" none
        (fun _ => { parseTag := fun r => .ok r,
                    determineDuration := fun _ => .error "Invalid OGG file" })
        100 true true
      = .error ("Failed to parse file: " ++ "Invalid OGG file") :=
  (c8_get_error_amended "song.mp3" .id3 none
    (fun _ => { parseTag := fun r => .ok r,
                determineDuration := fun _ => .error "Invalid OGG file" })
    100 Tinytag.emptyRecord "Invalid OGG file"
    (by decide) (by decide) (by rfl) (by rfl)).1

/-- C10: `TinyTag.get` on a zero-length source whose name matches a
supported extension returns, without raising and without invoking any
decoder pass (the result is the same for every decoder implementation),
the empty record — every tag and audio-property field unset — with
`filesize = 0`. -/
theorem c10_get_empty_file (filename : String) (k : Tinytag.ParserKind)
    (magic : Option Tinytag.ParserKind)
    (impl : Tinytag.ParserKind → Tinytag.ParserImpl) (tags duration : Bool)
    (hk : Tinytag.getParserForFilename filename = some k) :
    Tinytag.tinytagGet filename magic impl 0 tags duration
      = .ok ⟨Tinytag.emptyRecord, 0⟩ := by
  simp only [Tinytag.tinytagGet, hk]
  simp

/-- C10 witness: a zero-byte `song.mp3` with a decoder that would raise
on any invocation still yields the empty record with `filesize = 0`. -/
theorem c10_get_empty_file_witness :
    Tinytag.tinytagGet "song.mp3" none
        (fun _ => { parseTag := fun _ => .error "BOOM",
                    determineDuration := fun _ => .error "BOOM" })
        0 true true
      = .ok ⟨Tinytag.emptyRecord, 0⟩ :=
  c10_get_empty_file "song.mp3" .id3 none
    (fun _ => { parseTag := fun _ => .error "BOOM",
                determineDuration := fun _ => .error "BOOM" })
    true true (by decide)

/-- C3 counterexample: a STREAMINFO block whose payload read is 35 bytes
(at least 34, as the claim requires) is not decoded: `struct.unpack`
demands exactly 34 bytes and raises `struct.error`. -/
theorem c3_streaminfo_35_bytes_raises :
    Tinytag.flacParseStreaminfo 1000 (Tinytag.c3demo ++ [0])
        = .error "struct.error: unpack requires a buffer of 34 bytes" ∧
      34 ≤ (Tinytag.c3demo ++ [0]).length := by
  refine ⟨by decide, by decide⟩

/-- C3 amended: for a STREAMINFO payload of exactly 34 bytes (with a
non-zero sample-rate field), the parser extracts the sample rate as the
top 20 bits of the 64-bit region packed in payload bytes 10..17, the
channel count as the following 3 bits plus 1, the bit depth as the next
5 bits plus 1, the total sample count as the low 36 bits, and sets
`duration = total_samples / samplerate` and, when `duration > 0`,
`bitrate = filesize / duration * 8 / 1000`; a payload read longer than
34 bytes raises `struct.error`, shorter aborts the block loop. -/
theorem c3_streaminfo_amended (fsz : Rat) (info : List Nat)
    (h34 : info.length = 34) (hbytes : ∀ x ∈ info, x < 256)
    (hsr : Tinytag.bytes_to_int [info.getD 10 0, info.getD 11 0,
      info.getD 12 0, info.getD 13 0, info.getD 14 0, info.getD 15 0,
      info.getD 16 0, info.getD 17 0] / 2 ^ 44 ≠ 0) :
    Tinytag.flacParseStreaminfo fsz info =
      (let v := Tinytag.bytes_to_int [info.getD 10 0, info.getD 11 0,
        info.getD 12 0, info.getD 13 0, info.getD 14 0, info.getD 15 0,
        info.getD 16 0, info.getD 17 0]
      let sr : Nat := v / 2 ^ 44
      let ts : Nat := v % 2 ^ 36
      let dur : Rat := (ts : Rat) / (sr : Rat)
      .ok (.fields sr (v / 2 ^ 41 % 8 + 1) (v / 2 ^ 36 % 32 + 1) ts dur
        (if 0 < dur then some (fsz / dur * 8 / 1000) else none))) := by
  have hb : ∀ i, i < 34 → info.getD i 0 < 256 := by
    intro i hi
    rw [List.getD_eq_getElem info 0 (by omega)]
    exact hbytes _ (List.getElem_mem (by omega))
  obtain ⟨e1, e2, e3, e4⟩ := Tinytag.streaminfo_bits
    (info.getD 10 0) (info.getD 11 0) (info.getD 12 0) (info.getD 13 0)
    (info.getD 14 0) (info.getD 15 0) (info.getD 16 0) (info.getD 17 0)
    (hb 10 (by omega)) (hb 11 (by omega)) (hb 12 (by omega))
    (hb 13 (by omega)) (hb 14 (by omega)) (hb 15 (by omega))
    (hb 16 (by omega)) (hb 17 (by omega))
  simp only [Tinytag.flacParseStreaminfo]
  rw [if_neg (by omega), if_neg (by omega)]
  rw [e1, e2, e3, e4]
  rw [if_neg hsr]

/-- C3 witness: the 34-byte block encoding sample rate 44100, channels
2, bit depth 16, total samples 44100 decodes to duration 1 second (and,
for a 1000-byte file, bitrate 8 kbit/s). -/
theorem c3_streaminfo_amended_witness :
    Tinytag.flacParseStreaminfo 1000 Tinytag.c3demo
      = .ok (.fields 44100 2 16 44100 1 (some 8)) :=
  (c3_streaminfo_amended 1000 Tinytag.c3demo (by decide) (by decide)
      (by decide)).trans (by
    norm_num [Tinytag.c3demo, Tinytag.bytes_to_int, List.foldl,
      Nat.shiftLeft_eq])

/-- C7 counterexample: after an atom whose declared size is 8 (so
`atom_size = 0 <= 0`), `_traverse_atoms` keeps scanning and decodes the
following sibling leaf atom — the branch scan is not terminated. -/
theorem c7_empty_atom_not_terminating :
    (Tinytag.mp4Traverse 10 Tinytag.c7buf 0 Tinytag.c7path none).1
        = [([116, 115, 116, 32], [1, 2, 3, 4])] ∧
      (Tinytag.mp4Traverse 10 Tinytag.c7buf 0 Tinytag.c7path none).1 ≠ [] := by
  refine ⟨by decide, by decide⟩

/-- C7 amended: every atom is read via an 8-byte header (4-byte
big-endian size inclusive of the header, 4-byte type code), and an atom
whose size minus 8 is `<= 0` is skipped: the scan continues with the
next sibling header read immediately after the 8 header bytes
(`continue`), rather than terminating the branch. -/
theorem c7_mp4_empty_atom_continues (fuel : Nat) (buf : List Nat) (pos : Nat)
    (children : List (List Nat × Tinytag.AtomTree)) (stopPos : Option Nat)
    (hlen : pos + 8 ≤ buf.length)
    (hsz : Tinytag.bytes_to_int ((buf.drop pos).take 4) ≤ 8) :
    Tinytag.mp4Traverse (fuel + 1) buf pos children stopPos
      = Tinytag.mp4Traverse fuel buf (pos + 8) children stopPos := by
  have hh : ((buf.drop pos).take 8).length = 8 := by
    simp [List.length_take, List.length_drop]
    omega
  have ht : ((buf.drop pos).take 8).take 4 = (buf.drop pos).take 4 := by
    rw [List.take_take]
    norm_num
  have hsz2 : (Tinytag.bytes_to_int ((buf.drop pos).take 4) : Int) - 8 ≤ 0 := by
    omega
  simp only [Tinytag.mp4Traverse, hh, ht, lt_self_iff_false, if_false]
  rw [if_pos hsz2]

/-- C7 witness: the amended statement at the concrete buffer: the scan
over the empty atom continues at the next sibling. -/
theorem c7_mp4_empty_atom_continues_witness :
    Tinytag.mp4Traverse 10 Tinytag.c7buf 0 Tinytag.c7path none
      = Tinytag.mp4Traverse 9 Tinytag.c7buf 8 Tinytag.c7path none :=
  c7_mp4_empty_atom_continues 9 Tinytag.c7buf 0 Tinytag.c7path none
    (by decide) (by decide)

/-- C2: on the first valid MPEG frame (scan state still at zero frames),
when a `Xing` marker is found and its flags yield a positive frame count
and byte count, the scan immediately returns
`duration = frames * samples_per_frame / samplerate` with
`samples_per_frame = 576` for MPEG-2-class streams (`mpeg_id <= 2`) and
1152 otherwise, and `bitrate = byte_count * 8 / duration / 1000` — no
further frames are scanned (the result holds for every fuel and is
independent of the rest of the buffer). -/
theorem c2_xing_fast_path (fuel : Nat) (buf : List Nat)
    (pos filesize fileOffset : Nat) (xframes byte_count : Int) (pnew off : Nat)
    (hlen : 4 ≤ (buf.drop pos).length)
    (hsync : 255 < (buf.drop pos).getD 0 0
      ∨ ((buf.drop pos).getD 0 0 = 255 ∧ 224 < (buf.drop pos).getD 1 0))
    (hbr14 : ((buf.drop pos).getD 2 0 >>> 4) &&& 0x0F ≤ 14)
    (hbr0 : ((buf.drop pos).getD 2 0 >>> 4) &&& 0x0F ≠ 0)
    (hsr3 : ((buf.drop pos).getD 2 0 >>> 2) &&& 0x03 ≠ 3)
    (hlayer : ((buf.drop pos).getD 1 0 >>> 1) &&& 0x03 ≠ 0)
    (hmpeg : ((buf.drop pos).getD 1 0 >>> 3) &&& 0x03 ≠ 1)
    (hfind : Tinytag.findSeq (buf.drop pos) Tinytag.xingMarker = some off)
    (hparse : Tinytag.parse_xing_header buf (pos + off)
      = .ok (xframes, byte_count, pnew))
    (hxf : 0 < xframes) (hbc : 0 < byte_count) :
    Tinytag.mp3Scan (fuel + 1) buf pos filesize fileOffset Tinytag.mp3InitState
      = (let mpeg_id := ((buf.drop pos).getD 1 0 >>> 3) &&& 0x03
        let samplerate := (Tinytag.samplerates_table.getD mpeg_id []).getD
          (((buf.drop pos).getD 2 0 >>> 2) &&& 0x03) 0
        let spf : Nat := if mpeg_id ≤ 2 then 576 else 1152
        let duration : Rat :=
          ((xframes * (spf : Int) : Int) : Rat) / (samplerate : Rat)
        .ok { channels := some (Tinytag.channels_per_channel_mode.getD
                (((buf.drop pos).getD 3 0 >>> 6) &&& 0x03) 0),
              samplerate := some samplerate,
              duration := some duration,
              bitrate := some (((byte_count * 8 : Int) : Rat) / duration / 1000) }) := by
  simp only [Tinytag.mp3Scan, Tinytag.mp3InitState]
  rw [if_neg (by omega)]
  rw [if_neg (by
    intro h
    rcases h with h | h | h | h | h | h
    · exact h hsync
    · exact absurd h (not_lt.mpr hbr14)
    · exact hbr0 h
    · exact hsr3 h
    · exact hlayer h
    · exact hmpeg h)]
  simp only [ite_true, if_true]
  rw [hfind]
  simp only []
  rw [hparse]
  simp only []
  rw [if_pos ⟨hxf, hbc⟩]


/-- C2 witness: a minimal frame with a `Xing` marker carrying
frame-count 100 and byte-count 144000 at sample rate 44100 (MPEG-1):
duration = 100*1152/44100 = 128/49 s and bitrate = 441 kbit/s. -/
theorem c2_xing_fast_path_witness :
    Tinytag.mp3Scan 1 Tinytag.c2buf 0 1000 0 Tinytag.mp3InitState
      = .ok { channels := some 2, samplerate := some 44100,
              duration := some (128 / 49 : Rat), bitrate := some 441 } :=
  (c2_xing_fast_path 0 Tinytag.c2buf 0 1000 0 100 144000 20 4
    (by decide) (by decide) (by decide) (by decide) (by decide) (by decide)
    (by decide) (by decide) (by decide) (by decide) (by decide)).trans (by
  simp [Tinytag.c2buf, Tinytag.samplerates_table,
    Tinytag.channels_per_channel_mode,
    show (31 &&& 3 : Nat) = 3 from by decide,
    show (36 &&& 3 : Nat) = 0 from by decide]
  norm_num)

set_option maxRecDepth 8192 in
/-- C4 counterexample: a well-formed page whose segment table is
`[255, 10, 5]` holds two logical packets (265 bytes and 5 bytes), but
the reassembler yields one merged 270-byte packet: a segment of size
< 255 does NOT end the current packet once 255 or more bytes have
accumulated in the page since the last emitted packet. -/
theorem c4_small_segment_not_packet_end :
    Tinytag.parsePages 3 Tinytag.c4page 0 [] 0
        = .ok ([List.replicate 270 7], 0) ∧
      Tinytag.parsePages 3 Tinytag.c4page 0 [] 0
        ≠ .ok ([List.replicate 265 7, List.replicate 5 7], 0) := by
  refine ⟨by decide, by decide⟩

/-- C4 amended: a 255-valued segment continues the packet; a segment of
size < 255 ends the current packet only while the running byte total of
the page (since the last emitted packet) stays below 255 — otherwise
the remainder of the page is emitted as a single merged packet at page
end (or carried on when the total is a multiple of 255). In particular
a packet spanning two pages via a 255-valued final segment on page 1
and a continuation segment on page 2 is yielded as the concatenation of
both fragments. -/
theorem c4_ogg_reassembly_amended (A B : List Nat) (g1 g2 k : Nat)
    (hA : A.length = 255) (hB : B.length = k) (hk : k < 255)
    (hg1 : g1 < 2 ^ 63) (hg2 : g2 < 2 ^ 63) :
    (∀ buf rp prev, Tinytag.oggSegments buf [255] rp 0 prev
        = ([], prev ++ (buf.drop rp).take 255, rp + 255)) ∧
    (∀ buf rp prev s, s < 255 → Tinytag.oggSegments buf [s] rp 0 prev
        = ([prev ++ (buf.drop rp).take s], [], rp + s)) ∧
    Tinytag.parsePages 3
        (Tinytag.mkOggPage g1 [255] A ++ Tinytag.mkOggPage g2 [k] B) 0 [] 0
      = .ok ([A ++ B], max (max 0 (g1 : Int)) (g2 : Int)) :=
  ⟨fun buf rp prev => Tinytag.oggSegments_single255 buf rp prev,
   fun buf rp prev s hs => Tinytag.oggSegments_singleSmall buf rp prev s hs,
   Tinytag.parsePages_twoPage A B g1 g2 k hA hB hk hg1 hg2⟩

set_option maxRecDepth 8192 in
/-- C4 witness: a 255-byte packet fragment on page 1 (single 255
segment) continued by a 10-byte segment on page 2 reconstructs as one
265-byte packet, the concatenation of both fragments. -/
theorem c4_ogg_reassembly_amended_witness :
    Tinytag.parsePages 3
        (Tinytag.mkOggPage 5 [255] (List.replicate 255 1)
          ++ Tinytag.mkOggPage 9 [10] (List.replicate 10 2)) 0 [] 0
      = .ok ([List.replicate 255 1 ++ List.replicate 10 2], 9) :=
  ((c4_ogg_reassembly_amended (List.replicate 255 1) (List.replicate 10 2)
      5 9 10 (by simp) (by simp) (by decide) (by decide)
      (by decide)).2.2).trans (by norm_num)
